import Mathlib

/-!
Verification of the package-harvester core: the harvest pipeline coordinator
(`src/harvest/pipeline.rs`), the traversal-safe scoped extraction resource
(`TempExtraction`), the canonical metadata model (`src/harvest/traits.rs`),
and the concurrency-bounded executor (`src/executor.rs`).

The Rust code is shallowly embedded: paths become lists of components
(mirroring `std::path::Component`), machine integers become `Nat` with an
explicit `% 2 ^ 64` where `u64` wrap-around matters, fallible operations
return `Except`, and the asynchronous stage dispatch of the pipeline is made
explicit by parameterising `execute` over the outcome of each offloaded
worker (completed / stage error / join error / timed out).  Filesystem state
relevant to cleanup is tracked as an explicit state record threaded through
the run.
-/

namespace PackageHarvester

/- ======================================================================
   Path model, mirroring std::path.
   A path is a list of components; `std::path::Component` has the variants
   Prefix (Windows drive or UNC), RootDir, CurDir, ParentDir and Normal.
   ====================================================================== -/

/-- One component of a filesystem path, as produced by
`std::path::Path::components`. `driveComp` stands for the Windows
`Component::Prefix` variant. -/
inductive PathComponent where
  | driveComp (s : String)
  | rootDir
  | curDir
  | parentDir
  | normal (s : String)
deriving DecidableEq, Repr

/-- A path is its list of components. -/
abbrev RPath := List PathComponent

/-- Rendering of one component, used for the `display` of a path. -/
def PathComponent.render : PathComponent → String
  | .driveComp s => s
  | .rootDir => "/"
  | .curDir => "."
  | .parentDir => ".."
  | .normal s => s

/-- Model of `Path::display().to_string()`: components joined by `/`. -/
def RPath.display (p : RPath) : String :=
  String.intercalate "/" (p.map PathComponent.render)

/-- Model of `Path::is_absolute`: the path starts with a root or a drive
prefix component. -/
def RPath.isAbsolute : RPath → Bool
  | .rootDir :: _ => true
  | .driveComp _ :: _ => true
  | _ => false

/- ======================================================================
   Pipeline data types (src/harvest/pipeline.rs).
   ====================================================================== -/

/-- `SourceInfo` from pipeline.rs: static provenance of the source package. -/
structure SourceInfo where
  original_path : RPath
  size_bytes : Nat
  detected_format : String
deriving DecidableEq, Repr

/-- `TempExtraction` from pipeline.rs: the scoped extraction resource.
It owns the extraction directory and carries the cleanup policy consulted
by its `Drop` implementation. -/
structure TempExtraction where
  path : RPath
  source_info : SourceInfo
  cleanup_on_drop : Bool
deriving DecidableEq, Repr

/-- `PipelineError` from pipeline.rs. The `ioError` variant models the
`Io(std::io::Error)` case by its message. -/
inductive PipelineError where
  | stageTimeout (stage : String) (timeout_secs : Nat)
  | extractionFailed (detail : String)
  | analysisFailed (detail : String)
  | pathTraversal (attempted : String)
  | ioError (msg : String)
deriving DecidableEq, Repr

/-- The component-scanning loop of `TempExtraction::safe_child`
(pipeline.rs, lines 78-93): returns `true` at the first component that is
`ParentDir`, `RootDir`, or `Prefix`. -/
def findTraversal : List PathComponent → Bool
  | [] => false
  | c :: rest =>
    match c with
    | .parentDir => true
    | .rootDir => true
    | .driveComp _ => true
    | _ => findTraversal rest

/-- `TempExtraction::safe_child` (pipeline.rs, lines 58-96).  The source
first rejects absolute paths, then computes `candidate = path.join(relative)`
and scans the components of `relative`, rejecting `ParentDir`, `RootDir`
and `Prefix`; otherwise it returns `Ok(candidate)`.  The call to
`self.path.canonicalize()` in the source binds a variable that is never
used afterwards, so it has no effect on the returned value and is omitted:
the decision is purely syntactic on the components of `relative`.  For a
non-absolute `relative`, `join` appends the components of `relative` to
those of `self.path`. -/
def TempExtraction.safe_child (t : TempExtraction) (relative : RPath) :
    Except PipelineError RPath :=
  if relative.isAbsolute then
    .error (.pathTraversal relative.display)
  else
    let candidate := t.path ++ relative
    if findTraversal relative then
      .error (.pathTraversal relative.display)
    else
      .ok candidate

/- ======================================================================
   Canonical metadata model (src/harvest/traits.rs).
   ====================================================================== -/

/-- Minimal JSON value model, standing for `serde_json::Value` in the
`extra` map and in the serialized form of the metadata. -/
inductive Json where
  | null
  | jbool (b : Bool)
  | jnum (n : Int)
  | jstr (s : String)
  | jarr (xs : List Json)
  | jobj (fields : List (String × Json))

/-- `DependencyKind` from traits.rs. -/
inductive DependencyKind where
  | runtime
  | build
  | optionalDep
deriving DecidableEq, Repr

/-- `Dependency` from traits.rs. -/
structure Dependency where
  name : String
  version_constraint : Option String
  kind : DependencyKind
deriving DecidableEq, Repr

/-- `FileDescriptor` from traits.rs; `size` is a `u64`, `permissions` a
`u32`. -/
structure FileDescriptor where
  path : RPath
  hash : Option String
  size : Nat
  permissions : Nat
  symlink_target : Option RPath
deriving DecidableEq, Repr

/-- `HarvestMetadata` from traits.rs.  The `extra` map
(`HashMap<String, serde_json::Value>` with `#[serde(flatten)]`) is modelled
as an association list of key-value pairs. -/
structure HarvestMetadata where
  source_format : String
  package_name : String
  version : String
  dependencies : List Dependency
  files : List FileDescriptor
  capabilities : List String
  harvest_timestamp : Int
  harvester_version : String
  extra : List (String × Json)

/-- The declared (named) fields of `HarvestMetadata`, in declaration
order; these are the keys serde emits for the struct before the flattened
`extra` entries. -/
def namedFieldKeys : List String :=
  ["source_format", "package_name", "version", "dependencies", "files",
   "capabilities", "harvest_timestamp", "harvester_version"]

/-- serde encoding of `Option<String>`: `None` becomes `null`. -/
def encodeOptString : Option String → Json
  | none => .null
  | some s => .jstr s

/-- serde encoding of `Option<PathBuf>`. -/
def encodeOptPath : Option RPath → Json
  | none => .null
  | some p => .jstr p.display

/-- serde encoding of the unit enum `DependencyKind`. -/
def DependencyKind.encode : DependencyKind → Json
  | .runtime => .jstr "Runtime"
  | .build => .jstr "Build"
  | .optionalDep => .jstr "Optional"

/-- serde encoding of `Dependency`. -/
def Dependency.encode (d : Dependency) : Json :=
  .jobj [("name", .jstr d.name),
         ("version_constraint", encodeOptString d.version_constraint),
         ("kind", d.kind.encode)]

/-- serde encoding of `FileDescriptor`. -/
def FileDescriptor.encode (f : FileDescriptor) : Json :=
  .jobj [("path", .jstr f.path.display),
         ("hash", encodeOptString f.hash),
         ("size", .jnum (f.size : Int)),
         ("permissions", .jnum (f.permissions : Int)),
         ("symlink_target", encodeOptPath f.symlink_target)]

/-- serde serialization of `HarvestMetadata` (traits.rs, lines 184-227):
the named struct fields are emitted in declaration order, then the
`#[serde(flatten)]` attribute on `extra` appends the entries of the map at
the same top level, not nested under an `extra` key. -/
def HarvestMetadata.serialize (m : HarvestMetadata) : Json :=
  .jobj ([("source_format", .jstr m.source_format),
          ("package_name", .jstr m.package_name),
          ("version", .jstr m.version),
          ("dependencies", .jarr (m.dependencies.map Dependency.encode)),
          ("files", .jarr (m.files.map FileDescriptor.encode)),
          ("capabilities", .jarr (m.capabilities.map Json.jstr)),
          ("harvest_timestamp", .jnum m.harvest_timestamp),
          ("harvester_version", .jstr m.harvester_version)]
         ++ m.extra)

/-- The keys of a serialized JSON object (empty for non-objects). -/
def topLevelKeys : Json → List String
  | .jobj fields => fields.map Prod.fst
  | _ => []

/- ======================================================================
   Pipeline coordinator (HarvestPipeline::execute, pipeline.rs 354-442).
   ====================================================================== -/

/-- `HarvestStats` from pipeline.rs. -/
structure HarvestStats where
  total_duration_ms : Nat
  extraction_duration_ms : Nat
  analysis_duration_ms : Nat
  files_processed : Nat
  total_size_bytes : Nat

/-- `HarvestResult` from pipeline.rs. -/
structure HarvestResult where
  metadata : HarvestMetadata
  extraction_path : Option RPath
  stats : HarvestStats

/-- Outcome of one offloaded stage worker, as observed by the coordinator:
the `timeout(...)` wrapper elapsed first, the `spawn_blocking` join failed,
the stage returned its own error, or the stage completed with a value. -/
inductive StageOutcome (α : Type) where
  | timedOut
  | joinError (detail : String)
  | stageError (detail : String)
  | completed (value : α)

/-- The configuration of `HarvestPipeline` relevant to `execute`:
`stage_timeout` (kept as its `as_secs()` value, the whole-second count
used in `StageTimeout`) and `auto_cleanup`. -/
structure PipelineConfig where
  stage_timeout_secs : Nat
  auto_cleanup : Bool
deriving DecidableEq, Repr

/-- The extraction stage as the coordinator sees it: its `stage_name()`
and the outcome of its offloaded execution for the current run. -/
structure ExtractorModel where
  stage_name : String
  outcome : StageOutcome TempExtraction

/-- The analysis stage as the coordinator sees it: its `stage_name()` and
the outcome of its offloaded execution as a function of the
`TempExtraction` it receives (it takes the resource by value). -/
structure AnalyzerModel where
  stage_name : String
  run : TempExtraction → StageOutcome HarvestMetadata

/-- Wall-clock measurements of the run, an environmental input: the values
`Instant::elapsed` yields for the extraction stage, the analysis stage and
the whole call, in milliseconds. -/
structure StageTimings where
  extraction_ms : Nat
  analysis_ms : Nat
  total_ms : Nat
deriving DecidableEq, Repr

/-- The filesystem state relevant to cleanup of one run: whether the
extraction directory currently exists, whether `remove_dir_all` on it
would fail (environmental), and whether the warning of a failed removal
has been printed. -/
structure FsState where
  dirExists : Bool
  removalFails : Bool
  warningLogged : Bool
deriving DecidableEq, Repr

/-- `impl Drop for TempExtraction` (pipeline.rs, lines 99-112): when
`cleanup_on_drop` is set and the directory exists, recursively remove it;
a removal failure is reported by a printed warning and is otherwise
swallowed (the directory is conservatively kept in that case). -/
def TempExtraction.dropCleanup (t : TempExtraction) (fs : FsState) : FsState :=
  if t.cleanup_on_drop && fs.dirExists then
    if fs.removalFails then { fs with warningLogged := true }
    else { fs with dirExists := false }
  else fs

/-- Everything observable about one `execute` run: the value returned to
the caller, the filesystem state after every worker (including one
abandoned by a timeout) has finished, the `TempExtraction` the analysis
stage received, and whether the release logic (`Drop`) of the resource
ran. -/
structure ExecOutput where
  result : Except PipelineError HarvestResult
  fs : FsState
  analyzerInput : Option TempExtraction
  releaseRan : Bool

/-- Sum of the `size` fields of a file list, as in
`metadata.files.iter().map(|f| f.size).sum()` (pipeline.rs, line 424). -/
def sumFileSizes (files : List FileDescriptor) : Nat :=
  (files.map FileDescriptor.size).sum

/-- `HarvestPipeline::execute` (pipeline.rs, lines 354-442), with the
outcome of each offloaded worker and the measured durations taken as
inputs.  Faithful points of the source:
the extraction timeout error carries `self.extractor.stage_name()` and
`self.stage_timeout.as_secs()` (lines 373-376); a join failure or a stage
error becomes `ExtractionFailed` with the shown message shapes (377-378);
on extraction success the coordinator overwrites `cleanup_on_drop` with
its own `auto_cleanup` (line 381) before anything else touches the
resource; `extraction_path_for_result` is chosen from `auto_cleanup`
before `temp` moves into the analysis worker (404-408); the analysis
timeout error carries `self.analyzer.stage_name()` (415-418); on analysis
success `files_processed` is `metadata.files.len()` and
`total_size_bytes` the sum of the file sizes, a `u64` sum taken modulo
`2 ^ 64` (423-424).  The extraction stage creates the extraction
directory, so on extraction success the directory exists; `temp` is moved
into the analysis worker and is dropped there on success, on stage error
and on join error, and when the coordinator stops waiting on a timeout
the worker still runs to completion in the background and drops `temp`
then, so the final filesystem state reflects `dropCleanup` on every one
of those paths.  The analysis stage only reads the extraction directory
(ownership discipline: it never removes it itself). -/
def pipelineExecute (cfg : PipelineConfig) (ext : ExtractorModel)
    (ana : AnalyzerModel) (tm : StageTimings) (fs0 : FsState) : ExecOutput :=
  match ext.outcome with
  | .timedOut =>
      { result := .error (.stageTimeout ext.stage_name cfg.stage_timeout_secs),
        fs := fs0, analyzerInput := none, releaseRan := false }
  | .joinError d =>
      { result := .error (.extractionFailed ("Task join error: " ++ d)),
        fs := fs0, analyzerInput := none, releaseRan := false }
  | .stageError d =>
      { result := .error (.extractionFailed d),
        fs := fs0, analyzerInput := none, releaseRan := false }
  | .completed temp0 =>
      let temp : TempExtraction := { temp0 with cleanup_on_drop := cfg.auto_cleanup }
      let fs1 : FsState := { fs0 with dirExists := true }
      let extraction_path_for_result : Option RPath :=
        if cfg.auto_cleanup then none else some temp.path
      match ana.run temp with
      | .timedOut =>
          { result := .error (.stageTimeout ana.stage_name cfg.stage_timeout_secs),
            fs := temp.dropCleanup fs1, analyzerInput := some temp, releaseRan := true }
      | .joinError d =>
          { result := .error (.analysisFailed ("Task join error: " ++ d)),
            fs := temp.dropCleanup fs1, analyzerInput := some temp, releaseRan := true }
      | .stageError d =>
          { result := .error (.analysisFailed d),
            fs := temp.dropCleanup fs1, analyzerInput := some temp, releaseRan := true }
      | .completed metadata =>
          { result := .ok
              { metadata := metadata,
                extraction_path := extraction_path_for_result,
                stats :=
                  { total_duration_ms := tm.total_ms,
                    extraction_duration_ms := tm.extraction_ms,
                    analysis_duration_ms := tm.analysis_ms,
                    files_processed := metadata.files.length,
                    total_size_bytes := sumFileSizes metadata.files % 2 ^ 64 } },
            fs := temp.dropCleanup fs1, analyzerInput := some temp, releaseRan := true }

/- ======================================================================
   Bounded executor (src/executor.rs) and its data model (src/model.rs,
   src/traits.rs).
   ====================================================================== -/

/-- `LocalPackageNode` from model.rs. -/
structure LocalPackageNode where
  name : String
  version : String
  ecosystem : String
  description : Option String
  license : Option String
  dependencies : List String
deriving DecidableEq, Repr

/-- `LocalVulnerability` from model.rs. -/
structure LocalVulnerability where
  id : String
  severity : String
  description : String
  affected_versions : String
deriving DecidableEq, Repr

/-- `LocalVcsRef` from model.rs. -/
structure LocalVcsRef where
  url : String
  commit : Option String
  tag : Option String
deriving DecidableEq, Repr

/-- `HarvesterBatch` from model.rs. -/
structure HarvesterBatch where
  nodes : List LocalPackageNode
  vulnerabilities : List LocalVulnerability
  source_vcs : Option LocalVcsRef
deriving DecidableEq, Repr

/-- `ParseError` from traits.rs; the `IoError` case is modelled by its
message. -/
inductive ParseError where
  | invalidContent (msg : String)
  | ioError (msg : String)
  | unknown (msg : String)
deriving DecidableEq, Repr

/-- An `EcosystemParser` (traits.rs): its `ecosystem_id()` and its
`parse` function on raw content bytes (byte values as `Nat`). -/
structure EcosystemParserModel where
  ecosystem_id : String
  parse : List Nat → Except ParseError HarvesterBatch

/-- Observable events of one `HarvesterExecutor::execute` call, in the
order they occur. -/
inductive ExecEvent where
  | permitAcquired
  | parserInvoked
  | permitReleased
deriving DecidableEq, Repr

/-- The state of the shared `tokio::sync::Semaphore` as seen by one call:
`Semaphore::acquire` only fails when the semaphore has been closed;
otherwise the call waits until a permit is granted. -/
structure SemHandle where
  closed : Bool
deriving DecidableEq, Repr

/-- `HarvesterExecutor::execute` (executor.rs, lines 19-39) for a single
call, together with the event trace it produces.  If the semaphore is
closed, `acquire` fails and the error is mapped to
`ParseError::Unknown("Semaphore error: " + e)` without invoking the
parser (lines 27-30); otherwise the call holds a permit (`_permit`, a
RAII guard released when `execute` returns), invokes `parser.parse` on
the content (line 35), and returns its result unchanged (line 38). -/
def harvesterExecute (sem : SemHandle) (parser : EcosystemParserModel)
    (content : List Nat) : Except ParseError HarvesterBatch × List ExecEvent :=
  if sem.closed then
    (.error (.unknown "Semaphore error: the semaphore has been closed"), [])
  else
    (parser.parse content,
     [.permitAcquired, .parserInvoked, .permitReleased])

/- ======================================================================
   Concurrency model of the bounded executor: a transition system over
   the semaphore state shared by all concurrent `execute` calls.
   ====================================================================== -/

/-- Global state of one `HarvesterExecutor`: free permits of the
semaphore, the number of calls currently inside `parser.parse` (each
holds one permit), and the FIFO queue of calls waiting in
`Semaphore::acquire` (tokio serves waiters in FIFO order). -/
structure SemSysState where
  available : Nat
  inflight : Nat
  waiting : List Nat
deriving DecidableEq, Repr

/-- Initial executor state: `HarvesterExecutor::new(n)` creates the
semaphore with `n` permits (executor.rs, lines 12-16) and no call is in
flight. -/
def initState (n : Nat) : SemSysState :=
  { available := n, inflight := 0, waiting := [] }

/-- One step of the executor system: a new call arrives and queues in
`acquire`; the head waiter is granted a free permit and enters
`parser.parse`; or a call returns from `parser.parse` and its RAII
permit guard releases the permit. -/
inductive SemStep : SemSysState → SemSysState → Prop where
  | arrive (s : SemSysState) (id : Nat) :
      SemStep s { s with waiting := s.waiting ++ [id] }
  | grantHead (s : SemSysState) (id : Nat) (rest : List Nat) :
      0 < s.available → s.waiting = id :: rest →
      SemStep s { available := s.available - 1,
                  inflight := s.inflight + 1,
                  waiting := rest }
  | release (s : SemSysState) :
      0 < s.inflight →
      SemStep s { available := s.available + 1,
                  inflight := s.inflight - 1,
                  waiting := s.waiting }

/-- States reachable from the initial state of an executor built with
`n` permits. -/
inductive Reachable (n : Nat) : SemSysState → Prop where
  | init : Reachable n (initState n)
  | step {s t : SemSysState} : Reachable n s → SemStep s t → Reachable n t

/- ======================================================================
   Concrete fixtures, mirroring the mock stages of the pipeline tests.
   ====================================================================== -/

/-- Provenance of the sample package of the pipeline tests. -/
def sampleSource : SourceInfo :=
  { original_path := [.rootDir, .normal "tmp", .normal "test.appimage"],
    size_bytes := 1024, detected_format := "test" }

/-- A sample extraction resource, with the cleanup flag the stage set. -/
def sampleTemp : TempExtraction :=
  { path := [.rootDir, .normal "tmp", .normal "test_extract_1"],
    source_info := sampleSource, cleanup_on_drop := true }

/-- The 12-byte file of the mock analyzer. -/
def sampleFile : FileDescriptor :=
  { path := [.normal "test.txt"], hash := none, size := 12,
    permissions := 420, symlink_target := none }

/-- The metadata the mock analyzer returns. -/
def sampleMeta : HarvestMetadata :=
  { source_format := "test", package_name := "test-package",
    version := "1.0.0", dependencies := [], files := [sampleFile],
    capabilities := [], harvest_timestamp := 1234567890,
    harvester_version := "0.1.0", extra := [] }

/-- Sample measured durations of a run. -/
def tm0 : StageTimings := { extraction_ms := 3, analysis_ms := 4, total_ms := 9 }

/-- Filesystem before a run: extraction directory not yet created,
removal would succeed, no warning printed. -/
def fsInit : FsState :=
  { dirExists := false, removalFails := false, warningLogged := false }

/-- Filesystem before a run on which `remove_dir_all` would fail. -/
def fsRemovalFailing : FsState :=
  { dirExists := false, removalFails := true, warningLogged := false }

/-- An extractor whose worker times out. -/
def extTimeout : ExtractorModel :=
  { stage_name := "mock_extractor", outcome := .timedOut }

/-- An extractor that completes with the sample resource. -/
def extOk : ExtractorModel :=
  { stage_name := "mock_extractor", outcome := .completed sampleTemp }

/-- An analyzer whose worker times out. -/
def anaTimeout : AnalyzerModel :=
  { stage_name := "mock_analyzer", run := fun _ => .timedOut }

/-- An analyzer that completes with the sample metadata. -/
def anaOk : AnalyzerModel :=
  { stage_name := "mock_analyzer", run := fun _ => .completed sampleMeta }

/-- A metadata value whose `extra` map redefines the named field
`version`: the type accepts it and nothing in the core rejects it. -/
def overrideMeta : HarvestMetadata :=
  { source_format := "test", package_name := "demo", version := "1.0.0",
    dependencies := [], files := [], capabilities := [],
    harvest_timestamp := 1234567890, harvester_version := "0.1.0",
    extra := [("version", Json.jstr "2.0.0")] }

/-- An analyzer that returns `overrideMeta`. -/
def anaOverride : AnalyzerModel :=
  { stage_name := "mock_analyzer", run := fun _ => .completed overrideMeta }

/-- An empty dependency batch. -/
def emptyBatch : HarvesterBatch :=
  { nodes := [], vulnerabilities := [], source_vcs := none }

/-- A sample parser: rejects empty content, accepts anything else. -/
def sampleParser : EcosystemParserModel :=
  { ecosystem_id := "npm",
    parse := fun content =>
      if content = [] then .error (.invalidContent "empty content")
      else .ok emptyBatch }

/- ======================================================================
   Theorems.
   ====================================================================== -/

/-- The component scan of `safe_child` fires exactly on paths containing
a parent-directory, root, or drive-prefix component. -/
theorem findTraversal_eq_true_iff (l : List PathComponent) :
    findTraversal l = true ↔
      (PathComponent.parentDir ∈ l ∨ PathComponent.rootDir ∈ l ∨
       ∃ s, PathComponent.driveComp s ∈ l) := by
  induction l with
  | nil => simp [findTraversal]
  | cons c rest ih =>
    cases c with
    | driveComp s =>
      simp only [findTraversal, List.mem_cons]
      exact ⟨fun _ => Or.inr (Or.inr ⟨s, Or.inl rfl⟩), fun _ => trivial⟩
    | rootDir =>
      simp only [findTraversal, List.mem_cons]
      exact ⟨fun _ => Or.inr (Or.inl (Or.inl trivial)), fun _ => trivial⟩
    | curDir =>
      simp only [findTraversal, List.mem_cons]
      rw [ih]
      constructor
      · rintro (h | h | ⟨s, hs⟩)
        · exact Or.inl (Or.inr h)
        · exact Or.inr (Or.inl (Or.inr h))
        · exact Or.inr (Or.inr ⟨s, Or.inr hs⟩)
      · rintro ((h | h) | (h | h) | ⟨s, (hs | hs)⟩)
        · exact absurd h (by simp)
        · exact Or.inl h
        · exact absurd h (by simp)
        · exact Or.inr (Or.inl h)
        · exact absurd hs (by simp)
        · exact Or.inr (Or.inr ⟨s, hs⟩)
    | parentDir =>
      simp only [findTraversal, List.mem_cons]
      exact ⟨fun _ => Or.inl (Or.inl trivial), fun _ => trivial⟩
    | normal s =>
      simp only [findTraversal, List.mem_cons]
      rw [ih]
      constructor
      · rintro (h | h | ⟨u, hu⟩)
        · exact Or.inl (Or.inr h)
        · exact Or.inr (Or.inl (Or.inr h))
        · exact Or.inr (Or.inr ⟨u, Or.inr hu⟩)
      · rintro ((h | h) | (h | h) | ⟨u, (hu | hu)⟩)
        · exact absurd h (by simp)
        · exact Or.inl h
        · exact absurd h (by simp)
        · exact Or.inr (Or.inl h)
        · exact absurd hu (by simp)
        · exact Or.inr (Or.inr ⟨u, hu⟩)

/-- When the argument is absolute or the component scan fires,
`safe_child` returns the traversal error. -/
theorem safe_child_eq_error (t : TempExtraction) (rel : RPath)
    (hb : (rel.isAbsolute || findTraversal rel) = true) :
    t.safe_child rel = .error (.pathTraversal rel.display) := by
  rw [Bool.or_eq_true] at hb
  rcases hb with h | h
  · simp [TempExtraction.safe_child, h]
  · by_cases habs : rel.isAbsolute = true
    · simp [TempExtraction.safe_child, habs]
    · simp [TempExtraction.safe_child, habs, h]

/-- When the argument is neither absolute nor triggers the component
scan, `safe_child` joins it under the extraction root. -/
theorem safe_child_eq_ok (t : TempExtraction) (rel : RPath)
    (hb : (rel.isAbsolute || findTraversal rel) = false) :
    t.safe_child rel = .ok (t.path ++ rel) := by
  have h1 : rel.isAbsolute = false := by
    cases h : rel.isAbsolute
    · rfl
    · rw [h] at hb
      simp at hb
  have h2 : findTraversal rel = false := by
    cases h : findTraversal rel
    · rfl
    · rw [h] at hb
      simp at hb
  simp [TempExtraction.safe_child, h1, h2]

/-- Claim C1: `safe_child` returns a `PathTraversal` error exactly when
the relative argument is absolute or contains a parent-directory (`..`),
root, or drive-prefix component, and for every other relative path it
returns `Ok` with the extraction root joined (component append) with the
argument — purely syntactically, with no dependence on filesystem state
(the model of `safe_child` takes no filesystem input at all; the
`canonicalize` call in the source binds an unused variable). -/
theorem safe_child_traversal_guard (t : TempExtraction) (rel : RPath) :
    (t.safe_child rel = .error (.pathTraversal rel.display) ↔
      (rel.isAbsolute = true ∨ PathComponent.parentDir ∈ rel ∨
       PathComponent.rootDir ∈ rel ∨ ∃ s, PathComponent.driveComp s ∈ rel)) ∧
    (t.safe_child rel = .ok (t.path ++ rel) ↔
      ¬(rel.isAbsolute = true ∨ PathComponent.parentDir ∈ rel ∨
        PathComponent.rootDir ∈ rel ∨ ∃ s, PathComponent.driveComp s ∈ rel)) := by
  have hkey : (rel.isAbsolute = true ∨ PathComponent.parentDir ∈ rel ∨
      PathComponent.rootDir ∈ rel ∨ ∃ s, PathComponent.driveComp s ∈ rel) ↔
      (rel.isAbsolute || findTraversal rel) = true := by
    rw [Bool.or_eq_true]
    constructor
    · rintro (h | h)
      · exact Or.inl h
      · exact Or.inr ((findTraversal_eq_true_iff rel).mpr h)
    · rintro (h | h)
      · exact Or.inl h
      · exact Or.inr ((findTraversal_eq_true_iff rel).mp h)
  cases hb : (rel.isAbsolute || findTraversal rel) with
  | true =>
    have herr := safe_child_eq_error t rel hb
    rw [herr]
    constructor
    · exact ⟨fun _ => hkey.mpr hb, fun _ => rfl⟩
    · constructor
      · intro h
        simp at h
      · intro hc
        exact absurd (hkey.mpr hb) hc
  | false =>
    have hok := safe_child_eq_ok t rel hb
    have hnd : ¬(rel.isAbsolute = true ∨ PathComponent.parentDir ∈ rel ∨
        PathComponent.rootDir ∈ rel ∨ ∃ s, PathComponent.driveComp s ∈ rel) := by
      intro hc
      rw [hkey, hb] at hc
      exact Bool.false_ne_true hc
    rw [hok]
    constructor
    · constructor
      · intro h
        simp at h
      · intro hc
        exact absurd hc hnd
    · exact ⟨fun _ => hnd, fun _ => rfl⟩

/-- Witness for C1 at the concrete inputs of the repository test
`test_safe_child_rejects_path_traversal`: `../../etc/passwd` and
`/etc/passwd` are rejected, `subdir/file.txt` is accepted and joined
under the root. -/
theorem safe_child_traversal_guard_witness :
    sampleTemp.safe_child [.parentDir, .parentDir, .normal "etc", .normal "passwd"]
      = .error (.pathTraversal (RPath.display
          [.parentDir, .parentDir, .normal "etc", .normal "passwd"])) ∧
    sampleTemp.safe_child [.rootDir, .normal "etc", .normal "passwd"]
      = .error (.pathTraversal (RPath.display
          [.rootDir, .normal "etc", .normal "passwd"])) ∧
    sampleTemp.safe_child [.normal "subdir", .normal "file.txt"]
      = .ok (sampleTemp.path ++ [.normal "subdir", .normal "file.txt"]) := by
  refine ⟨?_, ?_, ?_⟩
  · exact (safe_child_traversal_guard sampleTemp
      [.parentDir, .parentDir, .normal "etc", .normal "passwd"]).1.mpr
      (Or.inr (Or.inl (by simp)))
  · exact (safe_child_traversal_guard sampleTemp
      [.rootDir, .normal "etc", .normal "passwd"]).1.mpr (Or.inl rfl)
  · exact (safe_child_traversal_guard sampleTemp
      [.normal "subdir", .normal "file.txt"]).2.mpr (by
        rintro (h | h | h | ⟨s, hs⟩)
        · simp [RPath.isAbsolute] at h
        · simp at h
        · simp at h
        · simp at hs)

/-- Claim C2: on every successful `execute` run, `extraction_path` is
absent exactly when `auto_cleanup` was enabled, and with cleanup disabled
it is present, equal to the path of the `TempExtraction` the extraction
stage produced, and the extraction directory still exists in the final
filesystem state of the run. -/
theorem extraction_path_iff_cleanup (cfg : PipelineConfig) (ext : ExtractorModel)
    (ana : AnalyzerModel) (tm : StageTimings) (fs0 : FsState) (r : HarvestResult)
    (h : (pipelineExecute cfg ext ana tm fs0).result = .ok r) :
    (r.extraction_path = none ↔ cfg.auto_cleanup = true) ∧
    (cfg.auto_cleanup = false →
      ∃ temp0, ext.outcome = .completed temp0 ∧
        r.extraction_path = some temp0.path ∧
        (pipelineExecute cfg ext ana tm fs0).fs.dirExists = true) := by
  cases hext : ext.outcome with
  | timedOut => simp [pipelineExecute, hext] at h
  | joinError d => simp [pipelineExecute, hext] at h
  | stageError d => simp [pipelineExecute, hext] at h
  | completed temp0 =>
    cases hana : ana.run { temp0 with cleanup_on_drop := cfg.auto_cleanup } with
    | timedOut => simp [pipelineExecute, hext, hana] at h
    | joinError d => simp [pipelineExecute, hext, hana] at h
    | stageError d => simp [pipelineExecute, hext, hana] at h
    | completed md =>
      simp only [pipelineExecute, hext, hana, Except.ok.injEq] at h
      subst h
      cases hcl : cfg.auto_cleanup with
      | true =>
        constructor
        · simp
        · intro hfalse
          exact absurd hfalse (by decide)
      | false =>
        rw [hcl] at hana
        constructor
        · simp
        · intro _
          refine ⟨temp0, rfl, by simp, ?_⟩
          simp [pipelineExecute, hext, hana, TempExtraction.dropCleanup, hcl]

/-- Witness for C2: with cleanup disabled the directory survives the run,
and with cleanup enabled the returned `extraction_path` is `none`. -/
theorem extraction_path_iff_cleanup_witness :
    (pipelineExecute ⟨300, false⟩ extOk anaOk tm0 fsInit).fs.dirExists = true ∧
    (pipelineExecute ⟨300, true⟩ extOk anaOk tm0 fsInit).result =
      .ok { metadata := sampleMeta, extraction_path := none,
            stats := { total_duration_ms := 9, extraction_duration_ms := 3,
                       analysis_duration_ms := 4, files_processed := 1,
                       total_size_bytes := 12 } } := by
  constructor
  · obtain ⟨t0, ht, hp, hd⟩ :=
      (extraction_path_iff_cleanup ⟨300, false⟩ extOk anaOk tm0 fsInit
        { metadata := sampleMeta, extraction_path := some sampleTemp.path,
          stats := { total_duration_ms := 9, extraction_duration_ms := 3,
                     analysis_duration_ms := 4, files_processed := 1,
                     total_size_bytes := 12 } } rfl).2 rfl
    exact hd
  · rfl

/-- Counterexample for C3: a run whose extraction stage times out yields a
`StageTimeout` whose `stage` field is the stage's own `stage_name()`
(here `mock_extractor`, as in the repository tests), not the literal
string `extraction` the claim requires. -/
theorem stage_timeout_literal_name_counterexample :
    (pipelineExecute ⟨5, true⟩ extTimeout anaOk tm0 fsInit).result
      = .error (.stageTimeout "mock_extractor" 5) ∧
    PipelineError.stageTimeout "mock_extractor" 5 ≠
      PipelineError.stageTimeout "extraction" 5 := by
  exact ⟨rfl, by decide⟩

/-- Claim C3 (amended): when a stage worker does not complete within the
configured timeout, `execute` returns a `StageTimeout` error whose
`stage` field equals that stage's `stage_name()` (the extraction stage
for the first stage, the analysis stage for the second) and whose
`timeout_secs` field equals the configured timeout in whole seconds. -/
theorem stage_timeout_carries_stage_name (cfg : PipelineConfig)
    (ext : ExtractorModel) (ana : AnalyzerModel) (tm : StageTimings)
    (fs0 : FsState) :
    (ext.outcome = .timedOut →
      (pipelineExecute cfg ext ana tm fs0).result =
        .error (.stageTimeout ext.stage_name cfg.stage_timeout_secs)) ∧
    (∀ temp0, ext.outcome = .completed temp0 →
      ana.run { temp0 with cleanup_on_drop := cfg.auto_cleanup } = .timedOut →
      (pipelineExecute cfg ext ana tm fs0).result =
        .error (.stageTimeout ana.stage_name cfg.stage_timeout_secs)) := by
  constructor
  · intro h
    simp [pipelineExecute, h]
  · intro temp0 hext hana
    simp [pipelineExecute, hext, hana]

/-- Witness for the amended C3: a timed-out extraction reports the
extractor's name, and a timed-out analysis reports the analyzer's name,
both with the configured whole-second timeout. -/
theorem stage_timeout_carries_stage_name_witness :
    (pipelineExecute ⟨10, true⟩ extTimeout anaTimeout tm0 fsInit).result =
      .error (.stageTimeout "mock_extractor" 10) ∧
    (pipelineExecute ⟨10, true⟩ extOk anaTimeout tm0 fsInit).result =
      .error (.stageTimeout "mock_analyzer" 10) := by
  exact ⟨(stage_timeout_carries_stage_name ⟨10, true⟩ extTimeout anaTimeout
            tm0 fsInit).1 rfl,
         (stage_timeout_carries_stage_name ⟨10, true⟩ extOk anaTimeout
            tm0 fsInit).2 sampleTemp rfl rfl⟩

/-- Claim C4: on every successful `execute` run, `files_processed` equals
the length of the returned file list and `total_size_bytes` equals the
`u64` sum of the file sizes — the true sum whenever it fits in a `u64`. -/
theorem execute_stats_match (cfg : PipelineConfig) (ext : ExtractorModel)
    (ana : AnalyzerModel) (tm : StageTimings) (fs0 : FsState)
    (r : HarvestResult)
    (h : (pipelineExecute cfg ext ana tm fs0).result = .ok r) :
    r.stats.files_processed = r.metadata.files.length ∧
    r.stats.total_size_bytes = sumFileSizes r.metadata.files % 2 ^ 64 ∧
    (sumFileSizes r.metadata.files < 2 ^ 64 →
      r.stats.total_size_bytes = sumFileSizes r.metadata.files) := by
  cases hext : ext.outcome with
  | timedOut => simp [pipelineExecute, hext] at h
  | joinError d => simp [pipelineExecute, hext] at h
  | stageError d => simp [pipelineExecute, hext] at h
  | completed temp0 =>
    cases hana : ana.run { temp0 with cleanup_on_drop := cfg.auto_cleanup } with
    | timedOut => simp [pipelineExecute, hext, hana] at h
    | joinError d => simp [pipelineExecute, hext, hana] at h
    | stageError d => simp [pipelineExecute, hext, hana] at h
    | completed md =>
      simp only [pipelineExecute, hext, hana, Except.ok.injEq] at h
      subst h
      exact ⟨rfl, rfl, fun hlt => Nat.mod_eq_of_lt hlt⟩

/-- Witness for C4 at the mock run with one 12-byte file. -/
theorem execute_stats_match_witness :
    (1 : Nat) = sampleMeta.files.length ∧
    (12 : Nat) = sumFileSizes sampleMeta.files := by
  have h := execute_stats_match ⟨300, true⟩ extOk anaOk tm0 fsInit
    { metadata := sampleMeta, extraction_path := none,
      stats := { total_duration_ms := 9, extraction_duration_ms := 3,
                 analysis_duration_ms := 4, files_processed := 1,
                 total_size_bytes := 12 } } rfl
  exact ⟨h.1, h.2.2 (by decide)⟩

/-- Claim C5: on every run whose extraction stage completes — so every
exit path that reaches the analysis stage, including analysis success,
analysis stage error and analysis timeout — the release logic of the
`TempExtraction` runs; when cleanup is enabled and the removal succeeds
the directory is gone, a removal failure is logged as a warning, and the
value returned to the caller is the same whether the removal fails or
succeeds. -/
theorem cleanup_runs_on_every_analysis_exit (cfg : PipelineConfig)
    (ext : ExtractorModel) (ana : AnalyzerModel) (tm : StageTimings)
    (fs0 : FsState) (temp0 : TempExtraction)
    (h : ext.outcome = .completed temp0) :
    (pipelineExecute cfg ext ana tm fs0).releaseRan = true ∧
    ((pipelineExecute cfg ext ana tm { fs0 with removalFails := true }).result =
      (pipelineExecute cfg ext ana tm { fs0 with removalFails := false }).result) ∧
    (cfg.auto_cleanup = true → fs0.removalFails = false →
      (pipelineExecute cfg ext ana tm fs0).fs.dirExists = false) ∧
    (cfg.auto_cleanup = true → fs0.removalFails = true →
      (pipelineExecute cfg ext ana tm fs0).fs.warningLogged = true) := by
  cases hana : ana.run { temp0 with cleanup_on_drop := cfg.auto_cleanup } with
  | timedOut =>
    refine ⟨by simp [pipelineExecute, h, hana], by simp [pipelineExecute, h, hana], ?_, ?_⟩
    · intro hcl hrf
      rw [hcl] at hana
      simp [pipelineExecute, h, hana, TempExtraction.dropCleanup, hcl, hrf]
    · intro hcl hrf
      rw [hcl] at hana
      simp [pipelineExecute, h, hana, TempExtraction.dropCleanup, hcl, hrf]
  | joinError d =>
    refine ⟨by simp [pipelineExecute, h, hana], by simp [pipelineExecute, h, hana], ?_, ?_⟩
    · intro hcl hrf
      rw [hcl] at hana
      simp [pipelineExecute, h, hana, TempExtraction.dropCleanup, hcl, hrf]
    · intro hcl hrf
      rw [hcl] at hana
      simp [pipelineExecute, h, hana, TempExtraction.dropCleanup, hcl, hrf]
  | stageError d =>
    refine ⟨by simp [pipelineExecute, h, hana], by simp [pipelineExecute, h, hana], ?_, ?_⟩
    · intro hcl hrf
      rw [hcl] at hana
      simp [pipelineExecute, h, hana, TempExtraction.dropCleanup, hcl, hrf]
    · intro hcl hrf
      rw [hcl] at hana
      simp [pipelineExecute, h, hana, TempExtraction.dropCleanup, hcl, hrf]
  | completed md =>
    refine ⟨by simp [pipelineExecute, h, hana], by simp [pipelineExecute, h, hana], ?_, ?_⟩
    · intro hcl hrf
      rw [hcl] at hana
      simp [pipelineExecute, h, hana, TempExtraction.dropCleanup, hcl, hrf]
    · intro hcl hrf
      rw [hcl] at hana
      simp [pipelineExecute, h, hana, TempExtraction.dropCleanup, hcl, hrf]

/-- Witness for C5: with cleanup enabled the run removes the directory
when removal succeeds, logs a warning when removal fails, and the
returned value is identical in both cases; an analysis stage error also
triggers release. -/
theorem cleanup_runs_on_every_analysis_exit_witness :
    (pipelineExecute ⟨300, true⟩ extOk anaOk tm0 fsInit).releaseRan = true ∧
    (pipelineExecute ⟨300, true⟩ extOk anaOk tm0 fsInit).fs.dirExists = false ∧
    (pipelineExecute ⟨300, true⟩ extOk anaOk tm0 fsRemovalFailing).fs.warningLogged = true ∧
    (pipelineExecute ⟨300, true⟩ extOk anaTimeout tm0 fsInit).releaseRan = true := by
  have h1 := cleanup_runs_on_every_analysis_exit ⟨300, true⟩ extOk anaOk tm0
    fsInit sampleTemp rfl
  have h2 := cleanup_runs_on_every_analysis_exit ⟨300, true⟩ extOk anaOk tm0
    fsRemovalFailing sampleTemp rfl
  have h3 := cleanup_runs_on_every_analysis_exit ⟨300, true⟩ extOk anaTimeout tm0
    fsInit sampleTemp rfl
  exact ⟨h1.1, h1.2.2.1 rfl rfl, h2.2.2.2 rfl rfl, h3.1⟩

/-- Claim C8: whenever the extraction stage completes, the coordinator
overwrites the `cleanup_on_drop` flag of the returned `TempExtraction`
with its own configured `auto_cleanup` policy before the analysis stage
receives the resource, whatever flag the stage set. -/
theorem coordinator_overrides_cleanup_flag (cfg : PipelineConfig)
    (ext : ExtractorModel) (ana : AnalyzerModel) (tm : StageTimings)
    (fs0 : FsState) (temp0 : TempExtraction)
    (h : ext.outcome = .completed temp0) :
    (pipelineExecute cfg ext ana tm fs0).analyzerInput =
      some { temp0 with cleanup_on_drop := cfg.auto_cleanup } := by
  cases hana : ana.run { temp0 with cleanup_on_drop := cfg.auto_cleanup } with
  | timedOut => simp [pipelineExecute, h, hana]
  | joinError d => simp [pipelineExecute, h, hana]
  | stageError d => simp [pipelineExecute, h, hana]
  | completed md => simp [pipelineExecute, h, hana]

/-- Witness for C8: the mock extractor sets the flag to `true`, the
coordinator is configured with `auto_cleanup = false`, and the analyzer
receives the resource with the flag already overwritten to `false`. -/
theorem coordinator_overrides_cleanup_flag_witness :
    (pipelineExecute ⟨300, false⟩ extOk anaOk tm0 fsInit).analyzerInput =
      some { sampleTemp with cleanup_on_drop := false } ∧
    sampleTemp.cleanup_on_drop = true := by
  exact ⟨coordinator_overrides_cleanup_flag ⟨300, false⟩ extOk anaOk tm0 fsInit
           sampleTemp rfl, rfl⟩

/-- Permit conservation: in every reachable executor state the free
permits and the in-flight calls sum to the configured limit. -/
theorem reachable_available_add_inflight (n : Nat) (s : SemSysState)
    (h : Reachable n s) : s.available + s.inflight = n := by
  induction h with
  | init => simp [initState]
  | step hr hs ih =>
    cases hs with
    | arrive id => exact ih
    | grantHead id rest hav hw => simp only [] ; omega
    | release hin => simp only [] ; omega

/-- Claim C6: for every concurrency limit `n ≥ 1`, in every reachable
state of the executor at most `n` calls are inside `parser.parse`
simultaneously, and whenever a permit is free and a call is waiting at
the head of the FIFO queue, the system can step so that this call
proceeds into `parser.parse` (and the resulting state is again
reachable), so waiting calls proceed as permits free up. -/
theorem executor_concurrency_bound (n : Nat) (s : SemSysState)
    (_hn : 1 ≤ n) (hs : Reachable n s) :
    s.inflight ≤ n ∧
    (∀ id rest, 0 < s.available → s.waiting = id :: rest →
      SemStep s { available := s.available - 1, inflight := s.inflight + 1,
                  waiting := rest } ∧
      Reachable n { available := s.available - 1, inflight := s.inflight + 1,
                    waiting := rest }) := by
  have hsum := reachable_available_add_inflight n s hs
  refine ⟨by omega, ?_⟩
  intro id rest hav hw
  have hstep := SemStep.grantHead s id rest hav hw
  exact ⟨hstep, Reachable.step hs hstep⟩

/-- Witness for C6 at limit 2: the state reached by one arriving call is
bounded by 2 in-flight calls, and the waiting call can be granted the
free permit, reaching state `(1, 1, [])`. -/
theorem executor_concurrency_bound_witness :
    ({ available := 2, inflight := 0, waiting := [7] } : SemSysState).inflight ≤ 2 ∧
    SemStep { available := 2, inflight := 0, waiting := [7] }
      { available := 1, inflight := 1, waiting := [] } ∧
    Reachable 2 { available := 1, inflight := 1, waiting := [] } := by
  have hr : Reachable 2 { available := 2, inflight := 0, waiting := [7] } :=
    Reachable.step Reachable.init (SemStep.arrive (initState 2) 7)
  have h := executor_concurrency_bound 2
    { available := 2, inflight := 0, waiting := [7] } (by decide) hr
  exact ⟨h.1, (h.2 7 [] (by decide) rfl).1, (h.2 7 [] (by decide) rfl).2⟩

/-- Claim C7: `HarvesterExecutor::execute` acquires a permit before the
parser is invoked and releases it after the parser call returns — the
event trace is acquire, invoke, release, for success and failure of the
parse alike — and when acquisition fails because the semaphore is
closed, it returns `ParseError::Unknown` without invoking the parser. -/
theorem execute_permit_discipline (sem : SemHandle)
    (parser : EcosystemParserModel) (content : List Nat) :
    (sem.closed = true →
      (harvesterExecute sem parser content).1 =
        .error (.unknown "Semaphore error: the semaphore has been closed") ∧
      ExecEvent.parserInvoked ∉ (harvesterExecute sem parser content).2) ∧
    (sem.closed = false →
      (harvesterExecute sem parser content).2 =
        [ExecEvent.permitAcquired, ExecEvent.parserInvoked,
         ExecEvent.permitReleased]) := by
  constructor
  · intro h
    constructor
    · simp [harvesterExecute, h]
    · simp [harvesterExecute, h]
  · intro h
    simp [harvesterExecute, h]

/-- Witness for C7: on the closed semaphore the parser is never invoked
and the `Unknown` error is returned; on the open semaphore the trace is
acquire, invoke, release. -/
theorem execute_permit_discipline_witness :
    (harvesterExecute { closed := true } sampleParser []).1 =
      .error (.unknown "Semaphore error: the semaphore has been closed") ∧
    ExecEvent.parserInvoked ∉ (harvesterExecute { closed := true } sampleParser []).2 ∧
    (harvesterExecute { closed := false } sampleParser [1, 2]).2 =
      [ExecEvent.permitAcquired, ExecEvent.parserInvoked,
       ExecEvent.permitReleased] := by
  have h1 := (execute_permit_discipline { closed := true } sampleParser []).1 rfl
  have h2 := (execute_permit_discipline { closed := false } sampleParser [1, 2]).2 rfl
  exact ⟨h1.1, h1.2, h2⟩

/-- Claim C10: whenever the semaphore is open (a permit is acquired),
`HarvesterExecutor::execute` returns exactly `parser.parse(content)` —
the batch on success, the parser error on failure — with no
transformation or substitution. -/
theorem execute_returns_parse_result (sem : SemHandle)
    (parser : EcosystemParserModel) (content : List Nat)
    (h : sem.closed = false) :
    (harvesterExecute sem parser content).1 = parser.parse content := by
  simp [harvesterExecute, h]

/-- Witness for C10: the sample parser error on empty content and its
batch on non-empty content are both passed through unchanged. -/
theorem execute_returns_parse_result_witness :
    (harvesterExecute { closed := false } sampleParser []).1 =
      .error (.invalidContent "empty content") ∧
    (harvesterExecute { closed := false } sampleParser [1]).1 = .ok emptyBatch := by
  constructor
  · exact (execute_returns_parse_result { closed := false } sampleParser [] rfl).trans rfl
  · exact (execute_returns_parse_result { closed := false } sampleParser [1] rfl).trans rfl

/-- Counterexample for C9: the pipeline (the core) accepts and returns
unchanged a `HarvestMetadata` whose `extra` map redefines the named
field `version` — the invariant that `extra` never redefines a named
field is not enforced anywhere. -/
theorem extra_redefines_named_field_counterexample :
    (pipelineExecute ⟨300, true⟩ extOk anaOverride tm0 fsInit).result =
      .ok { metadata := overrideMeta, extraction_path := none,
            stats := { total_duration_ms := 9, extraction_duration_ms := 3,
                       analysis_duration_ms := 4, files_processed := 0,
                       total_size_bytes := 0 } } ∧
    "version" ∈ namedFieldKeys ∧
    overrideMeta.extra.lookup "version" = some (Json.jstr "2.0.0") := by
  exact ⟨rfl, by decide, rfl⟩

/-- Claim C9 (amended): on serialization the keys of the `extra` map are
merged at the top level of the JSON object — after the named fields, not
nested under an `extra` key — but the no-redefinition invariant is not
enforced by the core: any metadata, including one whose `extra`
redefines a named field, is accepted by the analysis stage and returned
unchanged in the result. -/
theorem extra_flattened_not_enforced (m : HarvestMetadata)
    (cfg : PipelineConfig) (ext : ExtractorModel) (ana : AnalyzerModel)
    (tm : StageTimings) (fs0 : FsState) (temp0 : TempExtraction)
    (h1 : ext.outcome = .completed temp0)
    (h2 : ana.run { temp0 with cleanup_on_drop := cfg.auto_cleanup } =
      .completed m) :
    topLevelKeys m.serialize = namedFieldKeys ++ m.extra.map Prod.fst ∧
    (("extra" ∈ topLevelKeys m.serialize) ↔ ("extra" ∈ m.extra.map Prod.fst)) ∧
    (pipelineExecute cfg ext ana tm fs0).result =
      .ok { metadata := m,
            extraction_path :=
              if cfg.auto_cleanup then none else some temp0.path,
            stats := { total_duration_ms := tm.total_ms,
                       extraction_duration_ms := tm.extraction_ms,
                       analysis_duration_ms := tm.analysis_ms,
                       files_processed := m.files.length,
                       total_size_bytes := sumFileSizes m.files % 2 ^ 64 } } := by
  refine ⟨?_, ?_, ?_⟩
  · simp [HarvestMetadata.serialize, topLevelKeys, namedFieldKeys]
  · constructor
    · intro hmem
      rw [show topLevelKeys m.serialize = namedFieldKeys ++ m.extra.map Prod.fst
            from by simp [HarvestMetadata.serialize, topLevelKeys, namedFieldKeys]]
        at hmem
      rcases List.mem_append.mp hmem with hmem | hmem
      · exact absurd hmem (by decide)
      · exact hmem
    · intro hmem
      rw [show topLevelKeys m.serialize = namedFieldKeys ++ m.extra.map Prod.fst
            from by simp [HarvestMetadata.serialize, topLevelKeys, namedFieldKeys]]
      exact List.mem_append.mpr (Or.inr hmem)
  · simp [pipelineExecute, h1, h2]

/-- Witness for the amended C9 at `overrideMeta`, whose `extra` holds the
colliding key `version`: the serialized keys are the named keys followed
by `version`, nothing is nested under an `extra` key, and the pipeline
returns the value unchanged. -/
theorem extra_flattened_not_enforced_witness :
    topLevelKeys overrideMeta.serialize = namedFieldKeys ++ ["version"] ∧
    ("extra" ∈ topLevelKeys overrideMeta.serialize ↔
      "extra" ∈ overrideMeta.extra.map Prod.fst) ∧
    (pipelineExecute ⟨300, true⟩ extOk anaOverride tm0 fsInit).result =
      .ok { metadata := overrideMeta, extraction_path := none,
            stats := { total_duration_ms := 9, extraction_duration_ms := 3,
                       analysis_duration_ms := 4, files_processed := 0,
                       total_size_bytes := 0 } } := by
  have h := extra_flattened_not_enforced overrideMeta ⟨300, true⟩ extOk
    anaOverride tm0 fsInit sampleTemp rfl rfl
  exact ⟨h.1, h.2.1, h.2.2⟩

end PackageHarvester
